import Mathlib

/-!
Verification of the `BaseModel` entity class of an object-persistence layer
(`models/base_model.py`).

The embedding models:
* `Datetime` — Python `datetime.datetime` values (naive, microsecond precision),
  with `Datetime.isoformat` (rendering) and `parseIso` (the subset of
  `datetime.fromisoformat` relevant here: `YYYY-MM-DD[<sep>HH[:MM[:SS[.fff|.ffffff]]]]`,
  range-validated like the `datetime` constructor).
* `Value` — type-erased Python attribute values.
* `Attrs` — an instance `__dict__`: an insertion-ordered association list.
* `BaseModel.create`, `BaseModel.to_dict`, `BaseModel.save`, `BaseModel.str`,
  `BaseModel_init` — the methods of `BaseModel`, with the wall clock and the
  UUID randomness passed in explicitly and fallible code returning `Except`.
-/

set_option maxHeartbeats 1000000

/-- One decimal digit character, as produced by Python `%d` rendering. -/
def digitChar (n : Nat) : Char :=
  match n % 10 with
  | 0 => '0' | 1 => '1' | 2 => '2' | 3 => '3' | 4 => '4'
  | 5 => '5' | 6 => '6' | 7 => '7' | 8 => '8' | _ => '9'

/-- Zero-padded fixed-width decimal rendering (`'%0wd' % n`), low digits last. -/
def padNum : Nat → Nat → List Char
  | 0, _ => []
  | w+1, n => digitChar (n / 10^w) :: padNum w n

/-- Left-to-right accumulation of decimal digits; `none` on a non-digit
(the failure of Python `int()` on the slice). -/
def parseDigits : List Char → Nat → Option Nat
  | [], acc => some acc
  | c :: cs, acc =>
    if c.isDigit then parseDigits cs (acc * 10 + (c.toNat - 48)) else none

theorem digitChar_isDigit (n : Nat) : (digitChar n).isDigit = true := by
  have h : n % 10 < 10 := Nat.mod_lt _ (by norm_num)
  unfold digitChar
  interval_cases h : n % 10 <;> decide

theorem digitChar_toNat (n : Nat) : (digitChar n).toNat = 48 + n % 10 := by
  have h : n % 10 < 10 := Nat.mod_lt _ (by norm_num)
  unfold digitChar
  interval_cases h : n % 10 <;> decide

theorem parseDigits_padNum (w : Nat) : ∀ (n acc : Nat),
    parseDigits (padNum w n) acc = some (acc * 10^w + n % 10^w) := by
  induction w with
  | zero => intro n acc; simp [padNum, parseDigits, Nat.mod_one]
  | succ w ih =>
    intro n acc
    have hd := digitChar_isDigit (n / 10^w)
    simp only [padNum, parseDigits, hd, if_true, digitChar_toNat, ih,
      Nat.add_sub_cancel_left, Option.some.injEq]
    rw [pow_succ, Nat.mod_mul]
    ring

theorem padNum2_eq (n : Nat) :
    padNum 2 n = [digitChar (n / 10), digitChar n] := by
  norm_num [padNum]

theorem padNum4_eq (n : Nat) :
    padNum 4 n = [digitChar (n / 1000), digitChar (n / 100),
      digitChar (n / 10), digitChar n] := by
  norm_num [padNum]

theorem padNum6_eq (n : Nat) :
    padNum 6 n = [digitChar (n / 100000), digitChar (n / 10000),
      digitChar (n / 1000), digitChar (n / 100), digitChar (n / 10), digitChar n] := by
  norm_num [padNum]

theorem padNum_length (w : Nat) : ∀ n, (padNum w n).length = w := by
  induction w with
  | zero => intro n; rfl
  | succ w ih => intro n; simp [padNum, ih]

/-- Naive Python `datetime.datetime`: year/month/day/hour/minute/second/microsecond. -/
structure Datetime where
  year : Nat
  month : Nat
  day : Nat
  hour : Nat
  minute : Nat
  second : Nat
  microsecond : Nat
  deriving DecidableEq

/-- Gregorian leap-year rule, as in Python's `calendar.isleap`. -/
def isLeap (y : Nat) : Bool :=
  (y % 4 == 0 && y % 100 != 0) || y % 400 == 0

/-- Days in a month, as enforced by the `datetime` constructor. -/
def daysInMonth (y m : Nat) : Nat :=
  if m = 2 then (if isLeap y then 29 else 28)
  else if m = 4 ∨ m = 6 ∨ m = 9 ∨ m = 11 then 30
  else 31

/-- The field ranges the Python `datetime` constructor accepts. -/
def Datetime.valid (d : Datetime) : Bool :=
  1 ≤ d.year && d.year ≤ 9999 && 1 ≤ d.month && d.month ≤ 12 &&
  1 ≤ d.day && d.day ≤ daysInMonth d.year d.month &&
  d.hour ≤ 23 && d.minute ≤ 59 && d.second ≤ 59 && d.microsecond ≤ 999999

/-- Mixed-radix encoding; on valid datetimes it is an order embedding, so it
models Python's lexicographic `datetime` comparison. -/
def Datetime.key (d : Datetime) : Nat :=
  (((((d.year * 16 + d.month) * 32 + d.day) * 32 + d.hour) * 64 + d.minute) * 64
    + d.second) * 1000000 + d.microsecond

/-- `datetime` comparison (`<=`). -/
def Datetime.le (a b : Datetime) : Prop := a.key ≤ b.key

/-- `datetime` comparison (`<`). -/
def Datetime.lt (a b : Datetime) : Prop := a.key < b.key

instance (a b : Datetime) : Decidable (a.le b) := by unfold Datetime.le; infer_instance

instance (a b : Datetime) : Decidable (a.lt b) := by unfold Datetime.lt; infer_instance

/-- Character list of `datetime.isoformat()`:
`YYYY-MM-DDTHH:MM:SS` plus `.ffffff` when the microsecond field is nonzero. -/
def isoChars (d : Datetime) : List Char :=
  padNum 4 d.year ++ '-' :: (padNum 2 d.month ++ '-' :: (padNum 2 d.day ++
    'T' :: (padNum 2 d.hour ++ ':' :: (padNum 2 d.minute ++ ':' :: (padNum 2 d.second ++
      (if d.microsecond = 0 then [] else '.' :: padNum 6 d.microsecond))))))

/-- Python `datetime.isoformat()`. -/
def Datetime.isoformat (d : Datetime) : String := String.mk (isoChars d)

/-- The time-of-day part of `fromisoformat` (`_parse_isoformat_time`, without
time zones): `HH`, `HH:MM`, `HH:MM:SS`, optionally followed by `.fff` or `.ffffff`. -/
def parseTimeChars : List Char → Option (Nat × Nat × Nat × Nat)
  | h1 :: h2 :: rest =>
    match parseDigits [h1, h2] 0 with
    | none => none
    | some h =>
      match rest with
      | [] => some (h, 0, 0, 0)
      | c :: m1 :: m2 :: rest2 =>
        if c = ':' then
          match parseDigits [m1, m2] 0 with
          | none => none
          | some mi =>
            match rest2 with
            | [] => some (h, mi, 0, 0)
            | c2 :: s1 :: s2 :: rest3 =>
              if c2 = ':' then
                match parseDigits [s1, s2] 0 with
                | none => none
                | some s =>
                  match rest3 with
                  | [] => some (h, mi, s, 0)
                  | c3 :: fs =>
                    if c3 = '.' then
                      if fs.length = 3 then
                        match parseDigits fs 0 with
                        | none => none
                        | some f => some (h, mi, s, f * 1000)
                      else if fs.length = 6 then
                        match parseDigits fs 0 with
                        | none => none
                        | some f => some (h, mi, s, f)
                      else none
                    else none
              else none
            | _ => none
        else none
      | _ => none
  | _ => none

/-- Range validation performed by the `datetime(...)` constructor call at the
end of `fromisoformat`. -/
def mkDatetime (y mo d h mi s us : Nat) : Option Datetime :=
  let dt : Datetime := ⟨y, mo, d, h, mi, s, us⟩
  if dt.valid then some dt else none

/-- Python `datetime.fromisoformat` on a character list: a ten-character
`YYYY-MM-DD` date, then optionally one separator character and a time part. -/
def parseIsoChars : List Char → Option Datetime
  | y1 :: y2 :: y3 :: y4 :: c1 :: m1 :: m2 :: c2 :: d1 :: d2 :: rest =>
    if c1 = '-' ∧ c2 = '-' then
      match parseDigits [y1, y2, y3, y4] 0 with
      | none => none
      | some y =>
        match parseDigits [m1, m2] 0 with
        | none => none
        | some mo =>
          match parseDigits [d1, d2] 0 with
          | none => none
          | some d =>
            match rest with
            | [] => mkDatetime y mo d 0 0 0 0
            | _ :: ts =>
              if ts = [] then none
              else
                match parseTimeChars ts with
                | none => none
                | some (h, mi, s, us) => mkDatetime y mo d h mi s us
    else none
  | _ => none

/-- Python `datetime.fromisoformat` on a string. -/
def parseIso (s : String) : Option Datetime := parseIsoChars s.data

theorem parseDigits_pad4 (n : Nat) :
    parseDigits [digitChar (n / 1000), digitChar (n / 100),
      digitChar (n / 10), digitChar n] 0 = some (n % 10000) := by
  rw [← padNum4_eq, parseDigits_padNum]
  norm_num

theorem parseDigits_pad2 (n : Nat) :
    parseDigits [digitChar (n / 10), digitChar n] 0 = some (n % 100) := by
  rw [← padNum2_eq, parseDigits_padNum]
  norm_num

theorem parseDigits_pad6 (n : Nat) :
    parseDigits [digitChar (n / 100000), digitChar (n / 10000), digitChar (n / 1000),
      digitChar (n / 100), digitChar (n / 10), digitChar n] 0 = some (n % 1000000) := by
  rw [← padNum6_eq, parseDigits_padNum]
  norm_num

theorem daysInMonth_le_31 (y m : Nat) : daysInMonth y m ≤ 31 := by
  unfold daysInMonth
  split <;> [split <;> omega; skip]
  split <;> omega

/-- `fromisoformat` inverts `isoformat` on every datetime the `datetime`
constructor accepts. -/
theorem parseIso_isoformat (d : Datetime) (hv : d.valid = true) :
    parseIso d.isoformat = some d := by
  obtain ⟨y, mo, dd, h, mi, s, us⟩ := d
  have hdm := daysInMonth_le_31 y mo
  simp only [Datetime.valid, Bool.and_eq_true, decide_eq_true_eq] at hv
  obtain ⟨⟨⟨⟨⟨⟨⟨⟨⟨h1, h2⟩, h3⟩, h4⟩, h5⟩, h6⟩, h7⟩, h8⟩, h9⟩, h10⟩ := hv
  have hy : y % 10000 = y := Nat.mod_eq_of_lt (by omega)
  have hmo : mo % 100 = mo := Nat.mod_eq_of_lt (by omega)
  have hdd : dd % 100 = dd := Nat.mod_eq_of_lt (by omega)
  have hh : h % 100 = h := Nat.mod_eq_of_lt (by omega)
  have hmi : mi % 100 = mi := Nat.mod_eq_of_lt (by omega)
  have hs : s % 100 = s := Nat.mod_eq_of_lt (by omega)
  have hus : us % 1000000 = us := Nat.mod_eq_of_lt (by omega)
  have hvv : Datetime.valid ⟨y, mo, dd, h, mi, s, us⟩ = true := by
    simp only [Datetime.valid, Bool.and_eq_true, decide_eq_true_eq]
    refine ⟨⟨⟨⟨⟨⟨⟨⟨⟨h1, h2⟩, h3⟩, h4⟩, h5⟩, h6⟩, h7⟩, h8⟩, h9⟩, h10⟩
  show parseIsoChars (isoChars ⟨y, mo, dd, h, mi, s, us⟩) = _
  unfold isoChars
  rcases Nat.eq_zero_or_pos us with hz | hz
  · subst hz
    simp only [if_pos rfl, padNum4_eq, padNum2_eq, List.cons_append, List.nil_append,
      List.append_nil]
    simp only [parseIsoChars, parseTimeChars, parseDigits_pad4, parseDigits_pad2,
      hy, hmo, hdd, hh, hmi, hs, mkDatetime, hvv, if_pos rfl, and_self,
      reduceCtorEq, if_true, if_false, List.cons_ne_nil]
  · have hz' : ¬ us = 0 := by omega
    simp only [if_neg hz', padNum4_eq, padNum2_eq, padNum6_eq, List.cons_append,
      List.nil_append, List.append_nil]
    simp only [parseIsoChars, parseTimeChars, parseDigits_pad4, parseDigits_pad2,
      parseDigits_pad6, hy, hmo, hdd, hh, hmi, hs, hus, mkDatetime, hvv, if_pos rfl,
      and_self, reduceCtorEq, if_true, if_false, List.cons_ne_nil, List.length_cons,
      List.length_nil]
    norm_num
    intro hf
    rw [hvv] at hf
    cases hf

/-- Type-erased Python attribute values. -/
inductive Value where
  | vStr : String → Value
  | vDt : Datetime → Value
  | vNone : Value
  | vInt : Int → Value
  | vBool : Bool → Value
  deriving DecidableEq

/-- The errors the modelled code can raise. -/
inductive PyErr where
  | typeError : PyErr
  | valueError : PyErr
  | attributeError : PyErr
  deriving DecidableEq

/-- An instance `__dict__` (or a keyword-argument mapping): insertion-ordered
key/value pairs. -/
abbrev Attrs := List (String × Value)

/-- First-occurrence key lookup (`d[k]` / `getattr`). -/
def lookupA {α : Type} : List (String × α) → String → Option α
  | [], _ => none
  | (k, v) :: rest, key => if k = key then some v else lookupA rest key

/-- Python `d[k] = v` / `setattr`: update in place when the key is present
(insertion order kept), append otherwise. -/
def setKey {α : Type} (d : List (String × α)) (key : String) (v : α) :
    List (String × α) :=
  if d.any (fun p => p.1 = key) then
    d.map (fun p => if p.1 = key then (key, v) else p)
  else d ++ [(key, v)]

/-- `datetime.datetime.fromisoformat(value)`: `TypeError` unless the argument
is a string, `ValueError` when the string does not parse. -/
def fromisoformatV : Value → Except PyErr Datetime
  | .vStr s =>
    match parseIso s with
    | some d => .ok d
    | none => .error .valueError
  | _ => .error .typeError

/-- The loop body of `BaseModel.create`: iterate the mapping in order, skip
the `__class__` key, parse the two timestamp keys from
`dictionary['created_at']` / `dictionary['updated_at']`, and `setattr`
everything else unchanged. -/
def createLoop (dictionary : Attrs) : Attrs → Attrs → Except PyErr Attrs
  | self, [] => .ok self
  | self, (key, value) :: rest =>
    if key = "__class__" then createLoop dictionary self rest
    else if key = "created_at" then
      match fromisoformatV ((lookupA dictionary "created_at").getD value) with
      | .ok d => createLoop dictionary (setKey self key (.vDt d)) rest
      | .error e => .error e
    else if key = "updated_at" then
      match fromisoformatV ((lookupA dictionary "updated_at").getD value) with
      | .ok d => createLoop dictionary (setKey self key (.vDt d)) rest
      | .error e => .error e
    else createLoop dictionary (setKey self key value) rest

/-- `BaseModel.create(**dictionary)` run on a freshly allocated instance
(empty `__dict__`). -/
def create (dictionary : Attrs) : Except PyErr Attrs :=
  createLoop dictionary [] dictionary

/-- A live `BaseModel` (or subclass) instance: concrete class name plus
`__dict__`. -/
structure BaseModelObj where
  cls : String
  attrs : Attrs
  deriving DecidableEq

/-- `self.<name>.isoformat()`: `AttributeError` when the attribute is absent
or is not a datetime value. -/
def isoOfAttr : Option Value → Except PyErr String
  | some (.vDt t) => .ok t.isoformat
  | _ => .error .attributeError

/-- `BaseModel.to_dict`: copy `__dict__`, then override `__class__`,
`created_at` and `updated_at` (the timestamps rendered by `isoformat`).
The returned pair carries `self` after the call (never mutated: the update
happens on the copy). -/
def to_dict (o : BaseModelObj) : Except PyErr (BaseModelObj × Attrs) := do
  let cs ← isoOfAttr (lookupA o.attrs "created_at")
  let us ← isoOfAttr (lookupA o.attrs "updated_at")
  pure (o, setKey (setKey (setKey o.attrs "__class__" (.vStr o.cls)) "created_at"
    (.vStr cs)) "updated_at" (.vStr us))

/-- `BaseModel.save` on the instance itself: `self.updated_at = datetime.now()`.
The `models.storage.save()` flush touches only the storage file, not the
instance or the registry. -/
def save (o : BaseModelObj) (nowD : Datetime) : BaseModelObj :=
  { o with attrs := setKey o.attrs "updated_at" (.vDt nowD) }

/-- `isoformat` with an arbitrary separator character; `str(datetime)` uses a
space. -/
def isoCharsSep (sep : Char) (d : Datetime) : List Char :=
  padNum 4 d.year ++ '-' :: (padNum 2 d.month ++ '-' :: (padNum 2 d.day ++
    sep :: (padNum 2 d.hour ++ ':' :: (padNum 2 d.minute ++ ':' :: (padNum 2 d.second ++
      (if d.microsecond = 0 then [] else '.' :: padNum 6 d.microsecond))))))

/-- Python `str(value)` (abbreviated stdlib rendering; enough structure for the
claims, which never inspect the rendered text). -/
def pyStrOfValue : Value → String
  | .vStr s => s
  | .vDt d => String.mk (isoCharsSep ' ' d)
  | .vNone => "None"
  | .vInt n => toString n
  | .vBool b => if b then "True" else "False"

/-- Python `repr(value)` (abbreviated stdlib rendering). -/
def pyReprOfValue : Value → String
  | .vStr s => "'" ++ s ++ "'"
  | .vDt d => "datetime.datetime(" ++ String.intercalate ", "
      ([d.year, d.month, d.day, d.hour, d.minute, d.second, d.microsecond].map toString)
      ++ ")"
  | .vNone => "None"
  | .vInt n => toString n
  | .vBool b => if b then "True" else "False"

/-- Python `repr` of a `__dict__`. -/
def reprAttrs (d : Attrs) : String :=
  "\x7b" ++ String.intercalate ", "
    (d.map (fun p => "'" ++ p.1 ++ "': " ++ pyReprOfValue p.2)) ++ "\x7d"

/-- `BaseModel.__str__` (ToDisplayString):
`f"[{cls}] ({self.id}) {self.__dict__}"`; reading `self.id` raises
`AttributeError` when the attribute is absent. -/
def dunderStr (o : BaseModelObj) : Except PyErr String :=
  match lookupA o.attrs "id" with
  | some v => .ok ("[" ++ o.cls ++ "] (" ++ pyStrOfValue v ++ ") " ++ reprAttrs o.attrs)
  | none => .error .attributeError

/-- `int &= ~(0xc000 << 48); int |= 0x8000 << 48` of `uuid.UUID`: clear the
two variant bits (62-63) and set them to `10`. -/
def uuidSetVariant (x : Nat) : Nat := x - (x / 2^62 % 4) * 2^62 + 2 * 2^62

/-- `int &= ~(0xf000 << 64); int |= 4 << 76` of `uuid.UUID`: clear the version
nibble (76-79) and set it to `4`. -/
def uuidSetVersion (x : Nat) : Nat := x - (x / 2^76 % 16) * 2^76 + 4 * 2^76

/-- The 128-bit integer of `uuid.uuid4()`: sixteen random bytes `r`, with the
variant bits forced to `10` and the version nibble forced to `4`, exactly as
`uuid.UUID(bytes=..., version=4)` does. -/
def uuid4Int (r : Nat) : Nat := uuidSetVersion (uuidSetVariant (r % 2^128))

/-- One lowercase hexadecimal digit character. -/
def hexChar (n : Nat) : Char :=
  match n % 16 with
  | 0 => '0' | 1 => '1' | 2 => '2' | 3 => '3' | 4 => '4' | 5 => '5' | 6 => '6'
  | 7 => '7' | 8 => '8' | 9 => '9' | 10 => 'a' | 11 => 'b' | 12 => 'c' | 13 => 'd'
  | 14 => 'e' | _ => 'f'

/-- Zero-padded fixed-width lowercase hexadecimal rendering (`'%0wx' % n`). -/
def padHex : Nat → Nat → List Char
  | 0, _ => []
  | w+1, n => hexChar (n / 16^w) :: padHex w n

/-- `str(uuid.uuid4())`: the 32 hex digits in 8-4-4-4-12 groups. -/
def uuid4Str (r : Nat) : String :=
  let hx := padHex 32 (uuid4Int r)
  String.mk (hx.take 8 ++ '-' :: ((hx.drop 8).take 4 ++ '-' :: ((hx.drop 12).take 4 ++
    '-' :: ((hx.drop 16).take 4 ++ '-' :: hx.drop 20))))

/-- The process-wide storage registry, keyed by composite key. -/
abbrev Storage := List (String × BaseModelObj)

/-- Modelled from the spec: the storage engine (`FileStorage`) itself is not
under `src/`; §4.2 specifies `New(entity)` as insert/overwrite of the entry at
the composite key `"<ConcreteTypeName>.<id>"` in the process-wide registry. -/
def storageNew (s : Storage) (o : BaseModelObj) : Storage :=
  setKey s (o.cls ++ "." ++ (match lookupA o.attrs "id" with
    | some (.vStr i) => i
    | _ => "")) o

/-- `BaseModel.__init__(*args, **kwargs)` for concrete class `cls`, with the
current wall-clock datetime `nowD` and the UUID randomness `r` passed in.
Positional `args` are accepted and ignored. With a non-empty `kwargs` it
delegates to `create` and does not touch the registry; otherwise it generates
`id`, sets `created_at = updated_at = now()`, and registers with storage. -/
def BaseModel_init (cls : String) (args : List Value) (kwargs : Attrs)
    (nowD : Datetime) (r : Nat) (storage : Storage) :
    Except PyErr (BaseModelObj × Storage) :=
  if kwargs.length ≠ 0 then
    match create kwargs with
    | .ok d => .ok (⟨cls, d⟩, storage)
    | .error e => .error e
  else
    let d := setKey (setKey (setKey [] "id" (.vStr (uuid4Str r))) "created_at"
      (.vDt nowD)) "updated_at" (.vDt nowD)
    let o : BaseModelObj := ⟨cls, d⟩
    .ok (o, storageNew storage o)

theorem lookupA_eq_none_of_not_mem {α : Type} (k : String) :
    ∀ d : List (String × α), (∀ p ∈ d, p.1 ≠ k) → lookupA d k = none := by
  intro d
  induction d with
  | nil => intro _; rfl
  | cons p rest ih =>
    intro h
    obtain ⟨k1, v1⟩ := p
    simp only [lookupA]
    rw [if_neg (h (k1, v1) (List.mem_cons_self _ _))]
    exact ih fun q hq => h q (List.mem_cons_of_mem _ hq)

theorem lookupA_append_of_none {α : Type} (k : String) (ys : List (String × α)) :
    ∀ xs : List (String × α), lookupA xs k = none →
    lookupA (xs ++ ys) k = lookupA ys k := by
  intro xs
  induction xs with
  | nil => intro _; rfl
  | cons p rest ih =>
    intro h
    obtain ⟨k1, v1⟩ := p
    simp only [lookupA] at h ⊢
    by_cases hk : k1 = k
    · rw [if_pos hk] at h; cases h
    · rw [if_neg hk] at h ⊢
      exact ih h

theorem lookupA_append_of_some {α : Type} (k : String) (v : α)
    (ys : List (String × α)) :
    ∀ xs : List (String × α), lookupA xs k = some v →
    lookupA (xs ++ ys) k = some v := by
  intro xs
  induction xs with
  | nil => intro h; cases h
  | cons p rest ih =>
    intro h
    obtain ⟨k1, v1⟩ := p
    simp only [lookupA] at h ⊢
    by_cases hk : k1 = k
    · rwa [if_pos hk] at h ⊢
    · rw [if_neg hk] at h ⊢
      exact ih h

theorem setKey_eq_append {α : Type} (d : List (String × α)) (k : String) (v : α)
    (h : ∀ p ∈ d, p.1 ≠ k) : setKey d k v = d ++ [(k, v)] := by
  unfold setKey
  rw [if_neg]
  simp only [List.any_eq_true, decide_eq_true_eq, not_exists]
  intro p hc
  exact h p hc.1 hc.2

theorem lookupA_map_replace_self {α : Type} (k : String) (v : α) :
    ∀ d : List (String × α), (∃ p ∈ d, p.1 = k) →
    lookupA (d.map (fun p => if p.1 = k then (k, v) else p)) k = some v := by
  intro d
  induction d with
  | nil => rintro ⟨p, hp, -⟩; cases hp
  | cons q rest ih =>
    rintro ⟨p, hp, hpk⟩
    obtain ⟨k1, v1⟩ := q
    simp only [List.map_cons]
    by_cases hk : k1 = k
    · rw [if_pos hk]
      simp [lookupA]
    · rw [if_neg hk]
      simp only [lookupA]
      rw [if_neg hk]
      rcases List.mem_cons.mp hp with h1 | h1
      · exact absurd (by rw [h1] at hpk; exact hpk) hk
      · exact ih ⟨p, h1, hpk⟩

theorem lookupA_map_replace_other {α : Type} (k k' : String) (v : α) (hne : k' ≠ k) :
    ∀ d : List (String × α),
    lookupA (d.map (fun p => if p.1 = k then (k, v) else p)) k' = lookupA d k' := by
  intro d
  induction d with
  | nil => rfl
  | cons q rest ih =>
    obtain ⟨k1, v1⟩ := q
    simp only [List.map_cons]
    by_cases hk : k1 = k
    · rw [if_pos hk]
      simp only [lookupA]
      rw [if_neg (fun hc : k = k' => hne hc.symm),
        if_neg (fun hc : k1 = k' => hne (by rw [← hc, hk]))]
      exact ih
    · rw [if_neg hk]
      simp only [lookupA]
      by_cases hk' : k1 = k'
      · rw [if_pos hk', if_pos hk']
      · rw [if_neg hk', if_neg hk']
        exact ih

theorem lookupA_setKey_self {α : Type} (k : String) (v : α)
    (d : List (String × α)) : lookupA (setKey d k v) k = some v := by
  unfold setKey
  split
  · rename_i h
    simp only [List.any_eq_true, decide_eq_true_eq] at h
    exact lookupA_map_replace_self k v d h
  · rename_i h
    simp only [List.any_eq_true, decide_eq_true_eq, not_exists] at h
    rw [lookupA_append_of_none k _ d
      (lookupA_eq_none_of_not_mem k d fun p hp hc => h p ⟨hp, hc⟩)]
    simp [lookupA]

theorem lookupA_setKey_other {α : Type} (k k' : String) (v : α) (hne : k' ≠ k)
    (d : List (String × α)) : lookupA (setKey d k v) k' = lookupA d k' := by
  unfold setKey
  split
  · exact lookupA_map_replace_other k k' v hne d
  · rcases hl : lookupA d k' with - | w
    · rw [lookupA_append_of_none k' _ d hl]
      simp only [lookupA]
      rw [if_neg (fun hc : k = k' => hne hc.symm)]
    · exact lookupA_append_of_some k' w _ d hl

theorem keys_setKey_subset {α : Type} (d : List (String × α)) (k k' : String) (v : α)
    (h1 : k' ∉ d.map Prod.fst) (h2 : k' ≠ k) :
    k' ∉ (setKey d k v).map Prod.fst := by
  unfold setKey
  split
  · intro hc
    rcases List.mem_map.mp hc with ⟨p, hp, hpk⟩
    rcases List.mem_map.mp hp with ⟨q, hq, hqp⟩
    by_cases hqk : q.1 = k
    · rw [if_pos hqk] at hqp
      exact h2 (by rw [← hpk, ← hqp])
    · rw [if_neg hqk] at hqp
      exact h1 (List.mem_map.mpr ⟨q, hq, by rw [hqp, hpk]⟩)
  · intro hc
    rcases List.mem_map.mp hc with ⟨p, hp, hpk⟩
    rcases List.mem_append.mp hp with h | h
    · exact h1 (List.mem_map.mpr ⟨p, h, hpk⟩)
    · simp only [List.mem_singleton] at h
      exact h2 (by rw [← hpk, h])

theorem lookupA_of_mem_nodup {α : Type} :
    ∀ (d : List (String × α)) (p : String × α), p ∈ d →
    (d.map Prod.fst).Nodup → lookupA d p.1 = some p.2 := by
  intro d
  induction d with
  | nil => intro p hp; cases hp
  | cons q rest ih =>
    intro p hp hnd
    obtain ⟨k1, v1⟩ := q
    simp only [List.map_cons, List.nodup_cons] at hnd
    rcases List.mem_cons.mp hp with h | h
    · subst h
      simp [lookupA]
    · simp only [lookupA]
      rw [if_neg]
      · exact ih p h hnd.2
      · intro hc
        exact hnd.1 (hc ▸ List.mem_map.mpr ⟨p, h, rfl⟩)

theorem mem_of_lookupA {α : Type} (k : String) (v : α) :
    ∀ d : List (String × α), lookupA d k = some v → ∃ p ∈ d, p.1 = k := by
  intro d
  induction d with
  | nil => intro h; cases h
  | cons q rest ih =>
    intro h
    obtain ⟨k1, v1⟩ := q
    simp only [lookupA] at h
    by_cases hk : k1 = k
    · exact ⟨(k1, v1), List.mem_cons_self _ _, hk⟩
    · rw [if_neg hk] at h
      rcases ih h with ⟨p, hp, hpk⟩
      exact ⟨p, List.mem_cons_of_mem _ hp, hpk⟩

theorem createLoop_append (m : Attrs) :
    ∀ (xs ys acc : Attrs),
    createLoop m acc (xs ++ ys) =
      match createLoop m acc xs with
      | .ok a => createLoop m a ys
      | .error e => .error e := by
  intro xs
  induction xs with
  | nil => intro ys acc; rfl
  | cons p rest ih =>
    intro ys acc
    obtain ⟨k, v⟩ := p
    simp only [List.cons_append, createLoop]
    by_cases h1 : k = "__class__"
    · rw [if_pos h1, if_pos h1]
      exact ih ys acc
    · rw [if_neg h1, if_neg h1]
      by_cases h2 : k = "created_at"
      · rw [if_pos h2, if_pos h2]
        rcases fromisoformatV ((lookupA m "created_at").getD v) with e | d
        · rfl
        · exact ih ys _
      · rw [if_neg h2, if_neg h2]
        by_cases h3 : k = "updated_at"
        · rw [if_pos h3, if_pos h3]
          rcases fromisoformatV ((lookupA m "updated_at").getD v) with e | d
          · rfl
          · exact ih ys _
        · rw [if_neg h3, if_neg h3]
          exact ih ys _

theorem createLoop_ok_no_ts (m : Attrs) :
    ∀ (l acc : Attrs), (∀ p ∈ l, p.1 ≠ "created_at" ∧ p.1 ≠ "updated_at") →
    ∃ out, createLoop m acc l = .ok out := by
  intro l
  induction l with
  | nil => intro acc _; exact ⟨acc, rfl⟩
  | cons p rest ih =>
    intro acc h
    obtain ⟨k, v⟩ := p
    have hk := h (k, v) (List.mem_cons_self _ _)
    simp only [createLoop]
    by_cases h1 : k = "__class__"
    · rw [if_pos h1]
      exact ih acc fun q hq => h q (List.mem_cons_of_mem _ hq)
    · rw [if_neg h1, if_neg hk.1, if_neg hk.2]
      exact ih _ fun q hq => h q (List.mem_cons_of_mem _ hq)

theorem createLoop_keys_frame (m : Attrs) (k0 : String) :
    ∀ (l acc out : Attrs), createLoop m acc l = .ok out →
    k0 ∉ acc.map Prod.fst → (∀ p ∈ l, p.1 ≠ k0) → k0 ∉ out.map Prod.fst := by
  intro l
  induction l with
  | nil =>
    intro acc out h hacc _
    cases h
    exact hacc
  | cons p rest ih =>
    intro acc out h hacc hl
    obtain ⟨k, v⟩ := p
    have hk : k ≠ k0 := hl (k, v) (List.mem_cons_self _ _)
    have hrest : ∀ q ∈ rest, q.1 ≠ k0 := fun q hq => hl q (List.mem_cons_of_mem _ hq)
    simp only [createLoop] at h
    by_cases h1 : k = "__class__"
    · rw [if_pos h1] at h
      exact ih acc out h hacc hrest
    · rw [if_neg h1] at h
      by_cases h2 : k = "created_at"
      · rw [if_pos h2] at h
        rcases hv : fromisoformatV ((lookupA m "created_at").getD v) with e | d
        · rw [hv] at h; cases h
        · rw [hv] at h
          exact ih _ out h (keys_setKey_subset acc k k0 _ hacc (fun hc => hk hc.symm)) hrest
      · rw [if_neg h2] at h
        by_cases h3 : k = "updated_at"
        · rw [if_pos h3] at h
          rcases hv : fromisoformatV ((lookupA m "updated_at").getD v) with e | d
          · rw [hv] at h; cases h
          · rw [hv] at h
            exact ih _ out h (keys_setKey_subset acc k k0 _ hacc (fun hc => hk hc.symm)) hrest
        · rw [if_neg h3] at h
          exact ih _ out h (keys_setKey_subset acc k k0 _ hacc (fun hc => hk hc.symm)) hrest

theorem createLoop_lookup_frame (m : Attrs) (k0 : String) :
    ∀ (l acc out : Attrs), createLoop m acc l = .ok out →
    (∀ p ∈ l, p.1 ≠ k0) → lookupA out k0 = lookupA acc k0 := by
  intro l
  induction l with
  | nil =>
    intro acc out h _
    cases h
    rfl
  | cons p rest ih =>
    intro acc out h hl
    obtain ⟨k, v⟩ := p
    have hk : k ≠ k0 := hl (k, v) (List.mem_cons_self _ _)
    have hrest : ∀ q ∈ rest, q.1 ≠ k0 := fun q hq => hl q (List.mem_cons_of_mem _ hq)
    simp only [createLoop] at h
    by_cases h1 : k = "__class__"
    · rw [if_pos h1] at h
      exact ih acc out h hrest
    · rw [if_neg h1] at h
      by_cases h2 : k = "created_at"
      · rw [if_pos h2] at h
        rcases hv : fromisoformatV ((lookupA m "created_at").getD v) with e | d
        · rw [hv] at h; cases h
        · rw [hv] at h
          rw [ih _ out h hrest, lookupA_setKey_other k k0 _ (fun hc => hk hc.symm)]
      · rw [if_neg h2] at h
        by_cases h3 : k = "updated_at"
        · rw [if_pos h3] at h
          rcases hv : fromisoformatV ((lookupA m "updated_at").getD v) with e | d
          · rw [hv] at h; cases h
          · rw [hv] at h
            rw [ih _ out h hrest, lookupA_setKey_other k k0 _ (fun hc => hk hc.symm)]
        · rw [if_neg h3] at h
          rw [ih _ out h hrest, lookupA_setKey_other k k0 _ (fun hc => hk hc.symm)]

theorem createLoop_not_ok_of_bad (m : Attrs) (key0 : String) (w : Value) (e : PyErr)
    (hk0 : key0 = "created_at" ∨ key0 = "updated_at")
    (hw : lookupA m key0 = some w)
    (hbad : fromisoformatV w = .error e) :
    ∀ (l acc : Attrs), key0 ∈ l.map Prod.fst →
    ∀ out, createLoop m acc l ≠ .ok out := by
  intro l
  induction l with
  | nil => intro acc h; cases h
  | cons p rest ih =>
    intro acc hmem out hc
    obtain ⟨k, v⟩ := p
    simp only [List.map_cons, List.mem_cons] at hmem
    have hkey0c : key0 ≠ "__class__" := by
      rcases hk0 with h | h <;> (subst h; decide)
    simp only [createLoop] at hc
    by_cases h1 : k = "__class__"
    · rw [if_pos h1] at hc
      have : key0 ∈ rest.map Prod.fst := by
        rcases hmem with h | h
        · exact absurd (h ▸ h1) hkey0c
        · exact h
      exact ih acc this out hc
    · rw [if_neg h1] at hc
      by_cases h2 : k = "created_at"
      · rw [if_pos h2] at hc
        rcases hk0 with hk0 | hk0
        · have : (lookupA m "created_at").getD v = w := by rw [← hk0, hw]; rfl
          rw [this, hbad] at hc
          cases hc
        · rcases hv : fromisoformatV ((lookupA m "created_at").getD v) with e' | d
          · rw [hv] at hc; cases hc
          · rw [hv] at hc
            have : key0 ∈ rest.map Prod.fst := by
              rcases hmem with h | h
              · exfalso
                rw [hk0, h2] at h
                exact absurd h (by decide)
              · exact h
            exact ih _ this out hc
      · rw [if_neg h2] at hc
        by_cases h3 : k = "updated_at"
        · rw [if_pos h3] at hc
          rcases hk0 with hk0 | hk0
          · rcases hv : fromisoformatV ((lookupA m "updated_at").getD v) with e' | d
            · rw [hv] at hc; cases hc
            · rw [hv] at hc
              have : key0 ∈ rest.map Prod.fst := by
                rcases hmem with h | h
                · exfalso
                  rw [hk0, h3] at h
                  exact absurd h (by decide)
                · exact h
              exact ih _ this out hc
          · have : (lookupA m "updated_at").getD v = w := by rw [← hk0, hw]; rfl
            rw [this, hbad] at hc
            cases hc
        · rw [if_neg h3] at hc
          have : key0 ∈ rest.map Prod.fst := by
            rcases hmem with h | h
            · rcases hk0 with hk0 | hk0
              · exact absurd (by rw [← h, hk0]) h2
              · exact absurd (by rw [← h, hk0]) h3
            · exact h
          exact ih _ this out hc

/-- The per-entry effect of `to_dict` on the copied `__dict__`: the two
timestamp attributes become their ISO strings, everything else is unchanged. -/
def isoReplace (c u : Datetime) (p : String × Value) : String × Value :=
  (p.1, if p.1 = "created_at" then Value.vStr c.isoformat
    else if p.1 = "updated_at" then Value.vStr u.isoformat else p.2)

theorem lookupA_map_keyfun {α : Type} (g : String × α → α) (k : String) :
    ∀ d : List (String × α),
    lookupA (d.map (fun p => (p.1, g p))) k = (lookupA d k).map (fun v => g (k, v)) := by
  intro d
  induction d with
  | nil => rfl
  | cons q rest ih =>
    obtain ⟨k1, v1⟩ := q
    simp only [List.map_cons, lookupA]
    by_cases hk : k1 = k
    · subst hk
      rw [if_pos rfl, if_pos rfl]
      rfl
    · rw [if_neg hk, if_neg hk]
      exact ih

theorem createLoop_cons_class (m acc tail : Attrs) (v : Value) :
    createLoop m acc (("__class__", v) :: tail) = createLoop m acc tail := by
  simp [createLoop]

theorem createLoop_cons_created (m acc tail : Attrs) (v : Value) :
    createLoop m acc (("created_at", v) :: tail) =
      match fromisoformatV ((lookupA m "created_at").getD v) with
      | .ok d => createLoop m (setKey acc "created_at" (Value.vDt d)) tail
      | .error e => .error e := by
  simp [createLoop]

theorem createLoop_cons_updated (m acc tail : Attrs) (v : Value) :
    createLoop m acc (("updated_at", v) :: tail) =
      match fromisoformatV ((lookupA m "updated_at").getD v) with
      | .ok d => createLoop m (setKey acc "updated_at" (Value.vDt d)) tail
      | .error e => .error e := by
  simp [createLoop]

theorem createLoop_cons_other (m acc tail : Attrs) (k : String) (v : Value)
    (h1 : k ≠ "__class__") (h2 : k ≠ "created_at") (h3 : k ≠ "updated_at") :
    createLoop m acc ((k, v) :: tail) = createLoop m (setKey acc k v) tail := by
  simp [createLoop, h1, h2, h3]

theorem createLoop_cons_created_ok (m acc tail : Attrs) (v : Value) (d : Datetime)
    (hok : fromisoformatV ((lookupA m "created_at").getD v) = .ok d) :
    createLoop m acc (("created_at", v) :: tail) =
      createLoop m (setKey acc "created_at" (Value.vDt d)) tail := by
  rw [createLoop_cons_created, hok]

theorem createLoop_cons_created_err (m acc tail : Attrs) (v : Value) (e : PyErr)
    (herr : fromisoformatV ((lookupA m "created_at").getD v) = .error e) :
    createLoop m acc (("created_at", v) :: tail) = .error e := by
  rw [createLoop_cons_created, herr]

theorem createLoop_cons_updated_ok (m acc tail : Attrs) (v : Value) (d : Datetime)
    (hok : fromisoformatV ((lookupA m "updated_at").getD v) = .ok d) :
    createLoop m acc (("updated_at", v) :: tail) =
      createLoop m (setKey acc "updated_at" (Value.vDt d)) tail := by
  rw [createLoop_cons_updated, hok]

theorem createLoop_cons_updated_err (m acc tail : Attrs) (v : Value) (e : PyErr)
    (herr : fromisoformatV ((lookupA m "updated_at").getD v) = .error e) :
    createLoop m acc (("updated_at", v) :: tail) = .error e := by
  rw [createLoop_cons_updated, herr]

theorem createLoop_restore (m : Attrs) (c u : Datetime)
    (hmc : ∀ v, fromisoformatV ((lookupA m "created_at").getD v) = .ok c)
    (hmu : ∀ v, fromisoformatV ((lookupA m "updated_at").getD v) = .ok u) :
    ∀ (l acc : Attrs),
    (∀ p ∈ l, p.1 ∉ acc.map Prod.fst) →
    (l.map Prod.fst).Nodup →
    (∀ p ∈ l, p.1 ≠ "__class__") →
    (∀ p ∈ l, p.1 = "created_at" → p.2 = Value.vDt c) →
    (∀ p ∈ l, p.1 = "updated_at" → p.2 = Value.vDt u) →
    createLoop m acc (l.map (isoReplace c u)) = .ok (acc ++ l) := by
  intro l
  induction l with
  | nil =>
    intro acc _ _ _ _ _
    simp [createLoop]
  | cons p rest ih =>
    intro acc hdisj hnd hncl hcc huu
    obtain ⟨k, v⟩ := p
    have hknacc : k ∉ acc.map Prod.fst := hdisj (k, v) (List.mem_cons_self _ _)
    have happ : ∀ w : Value, setKey acc k w = acc ++ [(k, w)] := fun w =>
      setKey_eq_append acc k w fun q hq hqk =>
        hknacc (hqk ▸ List.mem_map.mpr ⟨q, hq, rfl⟩)
    simp only [List.map_cons, List.nodup_cons] at hnd
    have hknr : k ∉ rest.map Prod.fst := hnd.1
    have hstep : ∀ w : Value,
        (∀ q ∈ rest, q.1 ∉ (acc ++ [(k, w)]).map Prod.fst) := by
      intro w q hq
      rw [List.map_append, List.mem_append]
      rintro (h | h)
      · exact hdisj q (List.mem_cons_of_mem _ hq) h
      · simp only [List.map_cons, List.map_nil, List.mem_singleton] at h
        exact hknr (h ▸ List.mem_map.mpr ⟨q, hq, rfl⟩)
    have hrest2 : ∀ q ∈ rest, q.1 ≠ "__class__" :=
      fun q hq => hncl q (List.mem_cons_of_mem _ hq)
    have hrest3 : ∀ q ∈ rest, q.1 = "created_at" → q.2 = Value.vDt c :=
      fun q hq => hcc q (List.mem_cons_of_mem _ hq)
    have hrest4 : ∀ q ∈ rest, q.1 = "updated_at" → q.2 = Value.vDt u :=
      fun q hq => huu q (List.mem_cons_of_mem _ hq)
    have hk1 : k ≠ "__class__" := hncl (k, v) (List.mem_cons_self _ _)
    by_cases h2 : k = "created_at"
    · subst h2
      have hv : v = Value.vDt c := hcc _ (List.mem_cons_self _ _) rfl
      subst hv
      rw [List.map_cons,
        show isoReplace c u ("created_at", Value.vDt c)
          = ("created_at", Value.vStr c.isoformat) from rfl,
        createLoop_cons_created_ok m _ _ _ c (hmc _), happ,
        ih _ (hstep _) hnd.2 hrest2 hrest3 hrest4, List.append_assoc]
      rfl
    · by_cases h3 : k = "updated_at"
      · subst h3
        have hv : v = Value.vDt u := huu _ (List.mem_cons_self _ _) rfl
        subst hv
        rw [List.map_cons,
          show isoReplace c u ("updated_at", Value.vDt u)
            = ("updated_at", Value.vStr u.isoformat) from rfl,
          createLoop_cons_updated_ok m _ _ _ u (hmu _), happ,
          ih _ (hstep _) hnd.2 hrest2 hrest3 hrest4, List.append_assoc]
        rfl
      · rw [List.map_cons,
          show isoReplace c u (k, v) = (k, v) by simp [isoReplace, h2, h3],
          createLoop_cons_other m _ _ k v hk1 h2 h3, happ,
          ih _ (hstep _) hnd.2 hrest2 hrest3 hrest4, List.append_assoc]
        rfl

theorem setKey_eq_map_of_mem {α : Type} (d : List (String × α)) (k : String) (v : α)
    (h : ∃ p ∈ d, p.1 = k) :
    setKey d k v = d.map (fun p => if p.1 = k then (k, v) else p) := by
  unfold setKey
  rw [if_pos]
  simp only [List.any_eq_true, decide_eq_true_eq]
  rcases h with ⟨p, hp, hpk⟩
  exact ⟨p, hp, hpk⟩

theorem to_dict_shape (o : BaseModelObj) (c u : Datetime)
    (hnc : "__class__" ∉ o.attrs.map Prod.fst)
    (hc : lookupA o.attrs "created_at" = some (Value.vDt c))
    (hu : lookupA o.attrs "updated_at" = some (Value.vDt u)) :
    to_dict o = .ok (o, o.attrs.map (isoReplace c u)
      ++ [("__class__", Value.vStr o.cls)]) := by
  have hA : setKey o.attrs "__class__" (Value.vStr o.cls)
      = o.attrs ++ [("__class__", Value.vStr o.cls)] :=
    setKey_eq_append _ _ _ fun p hp hpk =>
      hnc (hpk ▸ List.mem_map.mpr ⟨p, hp, rfl⟩)
  have hcmem : ∃ p ∈ o.attrs, p.1 = "created_at" := mem_of_lookupA _ _ _ hc
  have humem : ∃ p ∈ o.attrs, p.1 = "updated_at" := mem_of_lookupA _ _ _ hu
  have hB : setKey (o.attrs ++ [("__class__", Value.vStr o.cls)]) "created_at"
      (Value.vStr c.isoformat)
      = o.attrs.map (fun p => if p.1 = "created_at"
          then ("created_at", Value.vStr c.isoformat) else p)
        ++ [("__class__", Value.vStr o.cls)] := by
    rw [setKey_eq_map_of_mem _ _ _ (by
      rcases hcmem with ⟨p, hp, hpk⟩
      exact ⟨p, List.mem_append_left _ hp, hpk⟩)]
    rw [List.map_append]
    congr 1
  have hC : setKey (o.attrs.map (fun p => if p.1 = "created_at"
        then ("created_at", Value.vStr c.isoformat) else p)
        ++ [("__class__", Value.vStr o.cls)]) "updated_at" (Value.vStr u.isoformat)
      = (o.attrs.map (fun p => if p.1 = "created_at"
          then ("created_at", Value.vStr c.isoformat) else p)).map
          (fun p => if p.1 = "updated_at"
            then ("updated_at", Value.vStr u.isoformat) else p)
        ++ [("__class__", Value.vStr o.cls)] := by
    rw [setKey_eq_map_of_mem _ _ _ (by
      rcases humem with ⟨p, hp, hpk⟩
      refine ⟨(fun p => if p.1 = "created_at"
        then ("created_at", Value.vStr c.isoformat) else p) p,
        List.mem_append_left _ (List.mem_map.mpr ⟨p, hp, rfl⟩), ?_⟩
      have hne : ¬ p.1 = "created_at" := by rw [hpk]; decide
      simp only [hne, if_false]
      exact hpk)]
    rw [List.map_append]
    congr 1
  have hD : (o.attrs.map (fun p => if p.1 = "created_at"
        then ("created_at", Value.vStr c.isoformat) else p)).map
        (fun p => if p.1 = "updated_at"
          then ("updated_at", Value.vStr u.isoformat) else p)
      = o.attrs.map (isoReplace c u) := by
    rw [List.map_map]
    apply List.map_congr_left
    intro p _
    by_cases hp1 : p.1 = "created_at"
    · simp only [Function.comp_apply, if_pos hp1]
      rw [if_neg (by decide : ¬ ("created_at" : String) = "updated_at")]
      simp [isoReplace, hp1]
    · by_cases hp2 : p.1 = "updated_at"
      · simp only [Function.comp_apply, if_neg hp1, if_pos hp2]
        simp [isoReplace, hp1, hp2]
      · simp only [Function.comp_apply, if_neg hp1, if_neg hp2]
        simp [isoReplace, hp1, hp2]
  rw [show to_dict o = Except.ok (o, setKey (setKey (setKey o.attrs "__class__"
      (Value.vStr o.cls)) "created_at" (Value.vStr c.isoformat)) "updated_at"
      (Value.vStr u.isoformat)) from by
    simp only [to_dict, hc, hu, isoOfAttr]
    rfl]
  rw [hA, hB, hC, hD]

theorem lookupA_map_isoReplace (c u : Datetime) (k : String) :
    ∀ A : Attrs, lookupA (A.map (isoReplace c u)) k
      = (lookupA A k).map (fun v => (isoReplace c u (k, v)).2) := by
  intro A
  induction A with
  | nil => rfl
  | cons q rest ih =>
    obtain ⟨k1, v1⟩ := q
    simp only [List.map_cons, isoReplace, lookupA]
    by_cases hk : k1 = k
    · subst hk
      rw [if_pos rfl, if_pos rfl]
      rfl
    · rw [if_neg hk, if_neg hk]
      exact ih

theorem create_of_to_dict (o : BaseModelObj) (c u : Datetime)
    (hnd : (o.attrs.map Prod.fst).Nodup)
    (hnc : "__class__" ∉ o.attrs.map Prod.fst)
    (hc : lookupA o.attrs "created_at" = some (Value.vDt c))
    (hu : lookupA o.attrs "updated_at" = some (Value.vDt u))
    (hcv : c.valid = true) (huv : u.valid = true) :
    create (o.attrs.map (isoReplace c u) ++ [("__class__", Value.vStr o.cls)])
      = .ok o.attrs := by
  set M := o.attrs.map (isoReplace c u) ++ [("__class__", Value.vStr o.cls)] with hM
  have hlc : lookupA M "created_at" = some (Value.vStr c.isoformat) := by
    rw [hM]
    have h1 : lookupA (o.attrs.map (isoReplace c u)) "created_at"
        = some (Value.vStr c.isoformat) := by
      rw [lookupA_map_isoReplace, hc]
      rfl
    exact lookupA_append_of_some _ _ _ _ h1
  have hlu : lookupA M "updated_at" = some (Value.vStr u.isoformat) := by
    rw [hM]
    have h1 : lookupA (o.attrs.map (isoReplace c u)) "updated_at"
        = some (Value.vStr u.isoformat) := by
      rw [lookupA_map_isoReplace, hu]
      rfl
    exact lookupA_append_of_some _ _ _ _ h1
  have hmc : ∀ v, fromisoformatV ((lookupA M "created_at").getD v) = .ok c := by
    intro v
    rw [hlc]
    show fromisoformatV (Value.vStr c.isoformat) = .ok c
    simp [fromisoformatV, parseIso_isoformat c hcv]
  have hmu : ∀ v, fromisoformatV ((lookupA M "updated_at").getD v) = .ok u := by
    intro v
    rw [hlu]
    show fromisoformatV (Value.vStr u.isoformat) = .ok u
    simp [fromisoformatV, parseIso_isoformat u huv]
  have hrest : createLoop M [] (o.attrs.map (isoReplace c u)) = .ok ([] ++ o.attrs) :=
    createLoop_restore M c u hmc hmu o.attrs []
      (fun p _ hmem => (List.not_mem_nil _ hmem))
      hnd
      (fun p hp hpc => hnc (hpc ▸ List.mem_map.mpr ⟨p, hp, rfl⟩))
      (fun p hp hpc => by
        have := lookupA_of_mem_nodup o.attrs p hp hnd
        rw [hpc, hc] at this
        exact Option.some.inj this.symm)
      (fun p hp hpu => by
        have := lookupA_of_mem_nodup o.attrs p hp hnd
        rw [hpu, hu] at this
        exact Option.some.inj this.symm)
  show createLoop M [] M = .ok o.attrs
  rw [hM, createLoop_append, hrest]
  show createLoop (List.map (isoReplace c u) o.attrs ++ [("__class__", Value.vStr o.cls)])
    ([] ++ o.attrs) [("__class__", Value.vStr o.cls)] = .ok o.attrs
  rw [createLoop_cons_class]
  rfl

/-- C1: round-trip identity — for an entity whose `__dict__` has no duplicate
keys and no `__class__` key and carries two (range-valid) datetime timestamps,
reconstructing a new entity of the same concrete class from `to_dict()` via the
constructor succeeds, and calling `to_dict()` on it yields the very same
mapping. -/
theorem C1_round_trip_identity (args : List Value) (nowD : Datetime) (r : Nat)
    (st : Storage) (o : BaseModelObj) (c u : Datetime) (m : Attrs)
    (hnd : (o.attrs.map Prod.fst).Nodup)
    (hnc : "__class__" ∉ o.attrs.map Prod.fst)
    (hc : lookupA o.attrs "created_at" = some (Value.vDt c))
    (hu : lookupA o.attrs "updated_at" = some (Value.vDt u))
    (hcv : c.valid = true) (huv : u.valid = true)
    (hm : to_dict o = .ok (o, m)) :
    ∃ o2 : BaseModelObj, BaseModel_init o.cls args m nowD r st = .ok (o2, st) ∧
      to_dict o2 = .ok (o2, m) := by
  have hshape := to_dict_shape o c u hnc hc hu
  rw [hshape] at hm
  have hmeq : o.attrs.map (isoReplace c u) ++ [("__class__", Value.vStr o.cls)] = m := by
    have := Except.ok.inj hm
    exact congrArg Prod.snd this
  subst hmeq
  refine ⟨o, ?_, hshape⟩
  have hcreate := create_of_to_dict o c u hnd hnc hc hu hcv huv
  have hlen : (o.attrs.map (isoReplace c u)
      ++ [("__class__", Value.vStr o.cls)]).length ≠ 0 := by
    simp
  unfold BaseModel_init
  rw [if_pos hlen, hcreate]

/-- Witness for C1 at a concrete entity (id, both timestamps, one extra
attribute). -/
theorem C1_round_trip_identity_witness :
    ∃ o2 : BaseModelObj,
      BaseModel_init (BaseModelObj.mk "BaseModel"
          [("id", Value.vStr "1809"),
           ("created_at", Value.vDt ⟨2024, 1, 14, 17, 7, 0, 0⟩),
           ("updated_at", Value.vDt ⟨2024, 1, 14, 17, 7, 0, 0⟩),
           ("email", Value.vStr "abdo@gmail.com")]).cls []
        [("id", Value.vStr "1809"),
         ("created_at", Value.vStr "2024-01-14T17:07:00"),
         ("updated_at", Value.vStr "2024-01-14T17:07:00"),
         ("email", Value.vStr "abdo@gmail.com"),
         ("__class__", Value.vStr "BaseModel")]
        ⟨2024, 2, 1, 0, 0, 0, 0⟩ 0 [] = .ok (o2, []) ∧
      to_dict o2 = .ok (o2,
        [("id", Value.vStr "1809"),
         ("created_at", Value.vStr "2024-01-14T17:07:00"),
         ("updated_at", Value.vStr "2024-01-14T17:07:00"),
         ("email", Value.vStr "abdo@gmail.com"),
         ("__class__", Value.vStr "BaseModel")]) :=
  C1_round_trip_identity [] ⟨2024, 2, 1, 0, 0, 0, 0⟩ 0 []
    (BaseModelObj.mk "BaseModel"
      [("id", Value.vStr "1809"),
       ("created_at", Value.vDt ⟨2024, 1, 14, 17, 7, 0, 0⟩),
       ("updated_at", Value.vDt ⟨2024, 1, 14, 17, 7, 0, 0⟩),
       ("email", Value.vStr "abdo@gmail.com")])
    ⟨2024, 1, 14, 17, 7, 0, 0⟩ ⟨2024, 1, 14, 17, 7, 0, 0⟩
    _ (by decide) (by decide) (by rfl) (by rfl) (by decide) (by decide) (by rfl)

/-- The `__dict__` produced by the fresh-construction path. -/
def freshAttrs (r : Nat) (nowD : Datetime) : Attrs :=
  [("id", Value.vStr (uuid4Str r)), ("created_at", Value.vDt nowD),
   ("updated_at", Value.vDt nowD)]

theorem BaseModel_init_fresh (cls : String) (args : List Value) (nowD : Datetime)
    (r : Nat) (st : Storage) :
    BaseModel_init cls args [] nowD r st =
      .ok (⟨cls, freshAttrs r nowD⟩, storageNew st ⟨cls, freshAttrs r nowD⟩) := by
  rfl

/-- C6: `save` sets `updated_at` to the current wall-clock datetime; hence it is
greater than or equal to the previous `updated_at` whenever the clock has not
gone backwards, and strictly greater when time has strictly advanced. -/
theorem C6_save_sets_updated_at (o : BaseModelObj) (nowD ub : Datetime)
    (hub : lookupA o.attrs "updated_at" = some (Value.vDt ub)) :
    lookupA (save o nowD).attrs "updated_at" = some (Value.vDt nowD) ∧
    (ub.le nowD → ∃ ua, lookupA (save o nowD).attrs "updated_at"
      = some (Value.vDt ua) ∧ ub.le ua) ∧
    (ub.lt nowD → ∃ ua, lookupA (save o nowD).attrs "updated_at"
      = some (Value.vDt ua) ∧ ub.lt ua) := by
  have h1 : lookupA (save o nowD).attrs "updated_at" = some (Value.vDt nowD) :=
    lookupA_setKey_self "updated_at" (Value.vDt nowD) o.attrs
  exact ⟨h1, fun hle => ⟨nowD, h1, hle⟩, fun hlt => ⟨nowD, h1, hlt⟩⟩

/-- Witness for C6: a concrete entity saved at a strictly later clock value. -/
theorem C6_save_sets_updated_at_witness :
    ∃ ua, lookupA (save ⟨"BaseModel",
        [("id", Value.vStr "x"),
         ("created_at", Value.vDt ⟨2024, 1, 14, 17, 7, 0, 0⟩),
         ("updated_at", Value.vDt ⟨2024, 1, 14, 17, 7, 0, 0⟩)]⟩
        ⟨2024, 1, 14, 17, 8, 0, 0⟩).attrs "updated_at"
      = some (Value.vDt ua) ∧ Datetime.lt ⟨2024, 1, 14, 17, 7, 0, 0⟩ ua :=
  (C6_save_sets_updated_at ⟨"BaseModel",
      [("id", Value.vStr "x"),
       ("created_at", Value.vDt ⟨2024, 1, 14, 17, 7, 0, 0⟩),
       ("updated_at", Value.vDt ⟨2024, 1, 14, 17, 7, 0, 0⟩)]⟩
    ⟨2024, 1, 14, 17, 8, 0, 0⟩ ⟨2024, 1, 14, 17, 7, 0, 0⟩ (by rfl)).2.2 (by decide)

/-- C7: fresh construction registers the new entity with the process-wide
storage registry; construction from a non-empty mapping leaves the registry
unchanged. -/
theorem C7_registration_frame (cls : String) (args : List Value) (nowD : Datetime)
    (r : Nat) (st : Storage) :
    (∃ o : BaseModelObj, BaseModel_init cls args [] nowD r st
      = .ok (o, storageNew st o)) ∧
    (∀ kwargs : Attrs, kwargs ≠ [] → ∀ (o : BaseModelObj) (st' : Storage),
      BaseModel_init cls args kwargs nowD r st = .ok (o, st') → st' = st) := by
  constructor
  · exact ⟨⟨cls, freshAttrs r nowD⟩, BaseModel_init_fresh cls args nowD r st⟩
  · intro kwargs hne o st' h
    unfold BaseModel_init at h
    rw [if_pos (fun h0 => hne (List.length_eq_zero.mp h0))] at h
    rcases hcr : create kwargs with e | d
    · rw [hcr] at h
      cases h
    · rw [hcr] at h
      exact (congrArg Prod.snd (Except.ok.inj h)).symm

/-- Witness for C7: the fresh path at concrete inputs registers the entity;
reconstruction from the concrete one-entry mapping leaves the empty registry
empty. -/
theorem C7_registration_frame_witness :
    (∃ o : BaseModelObj, BaseModel_init "BaseModel" [] [] ⟨2024, 1, 1, 0, 0, 0, 0⟩ 7 []
      = .ok (o, storageNew [] o)) ∧
    ([("User.u1", BaseModelObj.mk "User" [])] : Storage)
      = [("User.u1", BaseModelObj.mk "User" [])] :=
  ⟨(C7_registration_frame "BaseModel" [] ⟨2024, 1, 1, 0, 0, 0, 0⟩ 7 []).1,
    (C7_registration_frame "BaseModel" [] ⟨2024, 1, 1, 0, 0, 0, 0⟩ 7
        [("User.u1", BaseModelObj.mk "User" [])]).2
      [("name", Value.vStr "n")] (by decide)
      ⟨"BaseModel", [("name", Value.vStr "n")]⟩
      [("User.u1", BaseModelObj.mk "User" [])] (by rfl)⟩

/-- C8: `to_dict` never mutates the entity (the update happens on a copy of
`__dict__`), and calling it twice on the unmodified entity yields the same
mapping. -/
theorem C8_to_dict_idempotent (o o1 : BaseModelObj) (m1 : Attrs)
    (h : to_dict o = .ok (o1, m1)) :
    o1 = o ∧ to_dict o1 = .ok (o1, m1) := by
  rcases hc : isoOfAttr (lookupA o.attrs "created_at") with e | cs
  · rw [show to_dict o = .error e from by
      unfold to_dict
      rw [hc]
      rfl] at h
    cases h
  · rcases hu : isoOfAttr (lookupA o.attrs "updated_at") with e | us
    · rw [show to_dict o = .error e from by
        unfold to_dict
        rw [hc, hu]
        rfl] at h
      cases h
    · have hval : to_dict o = .ok (o, setKey (setKey (setKey o.attrs "__class__"
          (Value.vStr o.cls)) "created_at" (Value.vStr cs)) "updated_at"
          (Value.vStr us)) := by
        unfold to_dict
        rw [hc, hu]
        rfl
      rw [hval] at h
      have hp := Except.ok.inj h
      have ho1 : o1 = o := (congrArg Prod.fst hp).symm
      refine ⟨ho1, ?_⟩
      rw [ho1, hval, h, ho1]

/-- Witness for C8 at a concrete entity. -/
theorem C8_to_dict_idempotent_witness :
    BaseModelObj.mk "BaseModel"
        [("id", Value.vStr "x"),
         ("created_at", Value.vDt ⟨2024, 1, 14, 17, 7, 0, 0⟩),
         ("updated_at", Value.vDt ⟨2024, 1, 14, 17, 7, 0, 0⟩)]
      = ⟨"BaseModel",
        [("id", Value.vStr "x"),
         ("created_at", Value.vDt ⟨2024, 1, 14, 17, 7, 0, 0⟩),
         ("updated_at", Value.vDt ⟨2024, 1, 14, 17, 7, 0, 0⟩)]⟩ ∧
    to_dict ⟨"BaseModel",
        [("id", Value.vStr "x"),
         ("created_at", Value.vDt ⟨2024, 1, 14, 17, 7, 0, 0⟩),
         ("updated_at", Value.vDt ⟨2024, 1, 14, 17, 7, 0, 0⟩)]⟩
      = .ok (⟨"BaseModel",
        [("id", Value.vStr "x"),
         ("created_at", Value.vDt ⟨2024, 1, 14, 17, 7, 0, 0⟩),
         ("updated_at", Value.vDt ⟨2024, 1, 14, 17, 7, 0, 0⟩)]⟩,
        [("id", Value.vStr "x"),
         ("created_at", Value.vStr "2024-01-14T17:07:00"),
         ("updated_at", Value.vStr "2024-01-14T17:07:00"),
         ("__class__", Value.vStr "BaseModel")]) :=
  C8_to_dict_idempotent _ _ _ (by rfl)

theorem fromisoformatV_nonstring (v : Value) (hv : ∀ s, v ≠ Value.vStr s) :
    fromisoformatV v = .error PyErr.typeError := by
  cases v with
  | vStr s => exact absurd rfl (hv s)
  | vDt d => rfl
  | vNone => rfl
  | vInt n => rfl
  | vBool b => rfl

theorem create_head_created_err (v : Value) (rest : Attrs) (e : PyErr)
    (he : fromisoformatV v = .error e) :
    create (("created_at", v) :: rest) = .error e := by
  unfold create
  exact createLoop_cons_created_err _ _ _ _ e (by
    rw [show lookupA (("created_at", v) :: rest) "created_at" = some v from rfl]
    exact he)

theorem create_head_updated_err (v : Value) (rest : Attrs) (e : PyErr)
    (he : fromisoformatV v = .error e) :
    create (("updated_at", v) :: rest) = .error e := by
  unfold create
  exact createLoop_cons_updated_err _ _ _ _ e (by
    rw [show lookupA (("updated_at", v) :: rest) "updated_at" = some v from rfl]
    exact he)

theorem create_not_ok_of_bad_lookup (m : Attrs) (key0 : String) (w : Value) (e : PyErr)
    (hk0 : key0 = "created_at" ∨ key0 = "updated_at")
    (hw : lookupA m key0 = some w)
    (hbad : fromisoformatV w = .error e)
    (hmem : key0 ∈ m.map Prod.fst) :
    ∀ out, create m ≠ .ok out := by
  intro out
  unfold create
  exact createLoop_not_ok_of_bad m key0 w e hk0 hw hbad m [] hmem out

/-- C2 (amended): an explicit null is rejected with a `TypeError` only for the
two timestamp fields; a null for any other supplied field (such as `id`) is
copied onto the instance without any error. -/
theorem C2_null_fields (rest m : Attrs) :
    (create (("created_at", Value.vNone) :: rest) = .error PyErr.typeError) ∧
    (create (("updated_at", Value.vNone) :: rest) = .error PyErr.typeError) ∧
    (lookupA m "created_at" = some Value.vNone → "created_at" ∈ m.map Prod.fst →
      ∀ out, create m ≠ .ok out) ∧
    (lookupA m "updated_at" = some Value.vNone → "updated_at" ∈ m.map Prod.fst →
      ∀ out, create m ≠ .ok out) ∧
    ((∀ p ∈ m, p.1 ≠ "created_at" ∧ p.1 ≠ "updated_at") →
      ∃ out, create m = .ok out) := by
  refine ⟨create_head_created_err _ _ _ rfl,
    create_head_updated_err _ _ _ rfl, ?_, ?_, ?_⟩
  · intro hw hmem
    exact create_not_ok_of_bad_lookup m "created_at" Value.vNone PyErr.typeError
      (Or.inl rfl) hw rfl hmem
  · intro hw hmem
    exact create_not_ok_of_bad_lookup m "updated_at" Value.vNone PyErr.typeError
      (Or.inr rfl) hw rfl hmem
  · intro hts
    exact createLoop_ok_no_ts m m [] hts

/-- Counterexample to C2 as stated: a mapping carrying an explicit null for
`id` is accepted by the constructor (no TypeError), with the null copied
verbatim onto the instance. -/
theorem C2_null_fields_counterexample :
    BaseModel_init "BaseModel" [] [("id", Value.vNone)] ⟨2024, 1, 1, 0, 0, 0, 0⟩ 0 []
      = .ok (⟨"BaseModel", [("id", Value.vNone)]⟩, []) := by
  rfl

/-- Witness for C2 (amended) at concrete mappings. -/
theorem C2_null_fields_witness :
    (create [("created_at", Value.vNone)] = .error PyErr.typeError) ∧
    (create [("x", Value.vInt 1), ("updated_at", Value.vNone)] ≠ .ok []) ∧
    (∃ out, create [("id", Value.vNone), ("name", Value.vNone)] = .ok out) :=
  ⟨(C2_null_fields [] []).1,
    (C2_null_fields [] [("x", Value.vInt 1), ("updated_at", Value.vNone)]).2.2.2.1
      (by rfl) (by decide) [],
    (C2_null_fields [] [("id", Value.vNone), ("name", Value.vNone)]).2.2.2.2
      (by decide)⟩

theorem fromisoformatV_str_none (s : String) (hs : parseIso s = none) :
    fromisoformatV (Value.vStr s) = .error PyErr.valueError := by
  show (match parseIso s with
    | some d => Except.ok d
    | none => Except.error PyErr.valueError) = Except.error PyErr.valueError
  rw [hs]

theorem fromisoformatV_str_some (s : String) (d : Datetime) (hs : parseIso s = some d) :
    fromisoformatV (Value.vStr s) = .ok d := by
  show (match parseIso s with
    | some d => Except.ok d
    | none => Except.error PyErr.valueError) = Except.ok d
  rw [hs]

/-- C4: a `created_at`/`updated_at` entry holding a string that is not valid
ISO-8601 makes reconstruction fail with a `ValueError`; with a valid ISO-8601
string the field is parsed into a datetime value on the instance, not copied
as a string. -/
theorem C4_timestamp_parsing (s : String) (rest m : Attrs) :
    (parseIso s = none →
      create (("created_at", Value.vStr s) :: rest) = .error PyErr.valueError) ∧
    (parseIso s = none →
      create (("updated_at", Value.vStr s) :: rest) = .error PyErr.valueError) ∧
    (parseIso s = none → lookupA m "created_at" = some (Value.vStr s) →
      "created_at" ∈ m.map Prod.fst → ∀ out, create m ≠ .ok out) ∧
    (∀ d, parseIso s = some d → (∀ p ∈ rest, p.1 ≠ "created_at") →
      ∀ out, create (("created_at", Value.vStr s) :: rest) = .ok out →
        lookupA out "created_at" = some (Value.vDt d)) ∧
    (∀ d, parseIso s = some d → (∀ p ∈ rest, p.1 ≠ "updated_at") →
      ∀ out, create (("updated_at", Value.vStr s) :: rest) = .ok out →
        lookupA out "updated_at" = some (Value.vDt d)) := by
  refine ⟨fun hn => create_head_created_err _ _ _ (fromisoformatV_str_none s hn),
    fun hn => create_head_updated_err _ _ _ (fromisoformatV_str_none s hn),
    fun hn hw hmem => create_not_ok_of_bad_lookup m "created_at" (Value.vStr s)
      PyErr.valueError (Or.inl rfl) hw (fromisoformatV_str_none s hn) hmem,
    ?_, ?_⟩
  · intro d hd hrest out hok
    unfold create at hok
    rw [createLoop_cons_created_ok _ _ _ _ d (by
      rw [show lookupA (("created_at", Value.vStr s) :: rest) "created_at"
        = some (Value.vStr s) from rfl]
      exact fromisoformatV_str_some s d hd)] at hok
    rw [createLoop_lookup_frame _ "created_at" rest _ out hok hrest]
    exact lookupA_setKey_self "created_at" (Value.vDt d) []
  · intro d hd hrest out hok
    unfold create at hok
    rw [createLoop_cons_updated_ok _ _ _ _ d (by
      rw [show lookupA (("updated_at", Value.vStr s) :: rest) "updated_at"
        = some (Value.vStr s) from rfl]
      exact fromisoformatV_str_some s d hd)] at hok
    rw [createLoop_lookup_frame _ "updated_at" rest _ out hok hrest]
    exact lookupA_setKey_self "updated_at" (Value.vDt d) []

/-- Witness for C4: a malformed string is rejected with ValueError; a valid
ISO-8601 string is parsed to the datetime value. -/
theorem C4_timestamp_parsing_witness :
    (create [("created_at", Value.vStr "not-a-date")] = .error PyErr.valueError) ∧
    (lookupA [("created_at", Value.vDt ⟨2024, 1, 14, 17, 7, 0, 0⟩)] "created_at"
      = some (Value.vDt ⟨2024, 1, 14, 17, 7, 0, 0⟩)) :=
  ⟨(C4_timestamp_parsing "not-a-date" [] []).1 (by rfl),
    (C4_timestamp_parsing "2024-01-14T17:07:00" [] []).2.2.2.1
      ⟨2024, 1, 14, 17, 7, 0, 0⟩ (by rfl) (fun p hp => absurd hp (List.not_mem_nil p))
      [("created_at", Value.vDt ⟨2024, 1, 14, 17, 7, 0, 0⟩)] (by rfl)⟩

/-- C10: a non-string value (for instance an already-parsed datetime) supplied
for `created_at` or `updated_at` makes reconstruction fail with a `TypeError`
instead of being copied as-is. -/
theorem C10_nonstring_timestamp (v : Value) (rest m : Attrs)
    (hv : ∀ s, v ≠ Value.vStr s) :
    (create (("created_at", v) :: rest) = .error PyErr.typeError) ∧
    (create (("updated_at", v) :: rest) = .error PyErr.typeError) ∧
    (lookupA m "created_at" = some v → "created_at" ∈ m.map Prod.fst →
      ∀ out, create m ≠ .ok out) ∧
    (lookupA m "updated_at" = some v → "updated_at" ∈ m.map Prod.fst →
      ∀ out, create m ≠ .ok out) := by
  have ht := fromisoformatV_nonstring v hv
  exact ⟨create_head_created_err _ _ _ ht,
    create_head_updated_err _ _ _ ht,
    fun hw hmem => create_not_ok_of_bad_lookup m "created_at" v PyErr.typeError
      (Or.inl rfl) hw ht hmem,
    fun hw hmem => create_not_ok_of_bad_lookup m "updated_at" v PyErr.typeError
      (Or.inr rfl) hw ht hmem⟩

/-- Witness for C10: an already-parsed datetime value for `created_at` is
rejected with TypeError. -/
theorem C10_nonstring_timestamp_witness :
    create [("created_at", Value.vDt ⟨2024, 1, 14, 17, 7, 0, 0⟩),
      ("id", Value.vStr "x")] = .error PyErr.typeError :=
  (C10_nonstring_timestamp (Value.vDt ⟨2024, 1, 14, 17, 7, 0, 0⟩)
    [("id", Value.vStr "x")] [] (fun s h => Value.noConfusion h)).1

/-- Counterexample to C3 as stated: reconstructing from a mapping whose
`created_at` is later than its `updated_at` succeeds and yields an entity with
`created_at > updated_at`. -/
theorem C3_invariant_counterexample :
    BaseModel_init "BaseModel" []
        [("created_at", Value.vStr "2024-01-02T00:00:00"),
         ("updated_at", Value.vStr "2024-01-01T00:00:00")]
        ⟨2024, 3, 1, 0, 0, 0, 0⟩ 0 []
      = .ok (⟨"BaseModel",
        [("created_at", Value.vDt ⟨2024, 1, 2, 0, 0, 0, 0⟩),
         ("updated_at", Value.vDt ⟨2024, 1, 1, 0, 0, 0, 0⟩)]⟩, []) ∧
    ¬ Datetime.le ⟨2024, 1, 2, 0, 0, 0, 0⟩ ⟨2024, 1, 1, 0, 0, 0, 0⟩ :=
  ⟨by rfl, by decide⟩

/-- C3 (amended): `created_at <= updated_at` holds (with equality) right after
fresh construction, and is preserved by `save` whenever the wall clock at save
time is at least the stored `created_at`; reconstruction, however, copies the
caller-supplied timestamps verbatim and gives no such guarantee. -/
theorem C3_invariant_fresh_and_save (cls : String) (args : List Value)
    (nowD nowD2 : Datetime) (r : Nat) (st : Storage) (o : BaseModelObj)
    (c : Datetime)
    (hc : lookupA o.attrs "created_at" = some (Value.vDt c))
    (hmono : c.le nowD2) :
    (∃ o1 : BaseModelObj, BaseModel_init cls args [] nowD r st
        = .ok (o1, storageNew st o1) ∧
      lookupA o1.attrs "created_at" = some (Value.vDt nowD) ∧
      lookupA o1.attrs "updated_at" = some (Value.vDt nowD) ∧
      Datetime.le nowD nowD) ∧
    (lookupA (save o nowD2).attrs "created_at" = some (Value.vDt c) ∧
      lookupA (save o nowD2).attrs "updated_at" = some (Value.vDt nowD2) ∧
      c.le nowD2) := by
  constructor
  · exact ⟨⟨cls, freshAttrs r nowD⟩, BaseModel_init_fresh cls args nowD r st,
      rfl, rfl, Nat.le_refl _⟩
  · refine ⟨?_, lookupA_setKey_self _ _ _, hmono⟩
    show lookupA (setKey o.attrs "updated_at" (Value.vDt nowD2)) "created_at" = _
    rw [lookupA_setKey_other "updated_at" "created_at" _ (by decide)]
    exact hc

/-- Witness for C3 (amended): a concrete entity saved at a later clock value
keeps its `created_at` and moves `updated_at` to the clock value. -/
theorem C3_invariant_fresh_and_save_witness :
    lookupA (save ⟨"BaseModel",
        [("id", Value.vStr "x"),
         ("created_at", Value.vDt ⟨2024, 1, 14, 17, 7, 0, 0⟩),
         ("updated_at", Value.vDt ⟨2024, 1, 14, 17, 7, 0, 0⟩)]⟩
      ⟨2024, 1, 14, 17, 9, 0, 0⟩).attrs "created_at"
        = some (Value.vDt ⟨2024, 1, 14, 17, 7, 0, 0⟩) ∧
    lookupA (save ⟨"BaseModel",
        [("id", Value.vStr "x"),
         ("created_at", Value.vDt ⟨2024, 1, 14, 17, 7, 0, 0⟩),
         ("updated_at", Value.vDt ⟨2024, 1, 14, 17, 7, 0, 0⟩)]⟩
      ⟨2024, 1, 14, 17, 9, 0, 0⟩).attrs "updated_at"
        = some (Value.vDt ⟨2024, 1, 14, 17, 9, 0, 0⟩) ∧
    Datetime.le ⟨2024, 1, 14, 17, 7, 0, 0⟩ ⟨2024, 1, 14, 17, 9, 0, 0⟩ :=
  (C3_invariant_fresh_and_save "BaseModel" [] ⟨2024, 1, 1, 0, 0, 0, 0⟩
    ⟨2024, 1, 14, 17, 9, 0, 0⟩ 0 []
    ⟨"BaseModel",
      [("id", Value.vStr "x"),
       ("created_at", Value.vDt ⟨2024, 1, 14, 17, 7, 0, 0⟩),
       ("updated_at", Value.vDt ⟨2024, 1, 14, 17, 7, 0, 0⟩)]⟩
    ⟨2024, 1, 14, 17, 7, 0, 0⟩ (by rfl) (by decide)).2

theorem lookupA_eq_none_of_key_not_mem {α : Type} (k : String)
    (d : List (String × α)) (h : k ∉ d.map Prod.fst) : lookupA d k = none :=
  lookupA_eq_none_of_not_mem k d fun p hp hpk => h (hpk ▸ List.mem_map.mpr ⟨p, hp, rfl⟩)

theorem to_dict_missing_created (o : BaseModelObj)
    (h : lookupA o.attrs "created_at" = none) :
    to_dict o = .error PyErr.attributeError := by
  unfold to_dict
  rw [h]
  rfl

theorem to_dict_missing_updated (o : BaseModelObj)
    (h : lookupA o.attrs "updated_at" = none) :
    to_dict o = .error PyErr.attributeError := by
  unfold to_dict
  rw [h]
  rcases hc : lookupA o.attrs "created_at" with - | v
  · rfl
  · cases v <;> rfl

theorem dunderStr_missing_id (o : BaseModelObj)
    (h : lookupA o.attrs "id" = none) :
    dunderStr o = .error PyErr.attributeError := by
  unfold dunderStr
  rw [h]

/-- C9: reconstruction from a non-empty mapping omitting `created_at`,
`updated_at` (or `id`) succeeds with those attributes simply absent, after
which `to_dict` (and `__str__`, for a missing `id`) fails with an
`AttributeError`, since they read those attributes unconditionally. -/
theorem C9_missing_attributes (cls : String) (args : List Value) (nowD : Datetime)
    (r : Nat) (st : Storage) (m : Attrs)
    (hne : m ≠ [])
    (hts : ∀ p ∈ m, p.1 ≠ "created_at" ∧ p.1 ≠ "updated_at")
    (hid : ∀ p ∈ m, p.1 ≠ "id") :
    (∃ o : BaseModelObj, BaseModel_init cls args m nowD r st = .ok (o, st) ∧
      lookupA o.attrs "created_at" = none ∧
      lookupA o.attrs "updated_at" = none ∧
      to_dict o = .error PyErr.attributeError ∧
      dunderStr o = .error PyErr.attributeError) ∧
    (∀ (m2 out : Attrs), create m2 = .ok out → "created_at" ∉ m2.map Prod.fst →
      to_dict ⟨cls, out⟩ = .error PyErr.attributeError) ∧
    (∀ (m2 out : Attrs), create m2 = .ok out → "updated_at" ∉ m2.map Prod.fst →
      to_dict ⟨cls, out⟩ = .error PyErr.attributeError) ∧
    (∀ (m2 out : Attrs), create m2 = .ok out → "id" ∉ m2.map Prod.fst →
      dunderStr ⟨cls, out⟩ = .error PyErr.attributeError) := by
  have frame : ∀ (k0 : String) (m2 out : Attrs), create m2 = .ok out →
      k0 ∉ m2.map Prod.fst → k0 ∉ out.map Prod.fst := by
    intro k0 m2 out hok hnm
    exact createLoop_keys_frame m2 k0 m2 [] out hok (by simp)
      (fun p hp hpk => hnm (hpk ▸ List.mem_map.mpr ⟨p, hp, rfl⟩))
  refine ⟨?_, ?_, ?_, ?_⟩
  · obtain ⟨out, hout⟩ := createLoop_ok_no_ts m m [] hts
    have hok : create m = .ok out := hout
    have hcr : lookupA out "created_at" = none :=
      lookupA_eq_none_of_key_not_mem _ _ (frame "created_at" m out hok
        (fun hmem => by
          rcases List.mem_map.mp hmem with ⟨p, hp, hpk⟩
          exact (hts p hp).1 hpk))
    have hur : lookupA out "updated_at" = none :=
      lookupA_eq_none_of_key_not_mem _ _ (frame "updated_at" m out hok
        (fun hmem => by
          rcases List.mem_map.mp hmem with ⟨p, hp, hpk⟩
          exact (hts p hp).2 hpk))
    have hir : lookupA out "id" = none :=
      lookupA_eq_none_of_key_not_mem _ _ (frame "id" m out hok
        (fun hmem => by
          rcases List.mem_map.mp hmem with ⟨p, hp, hpk⟩
          exact hid p hp hpk))
    refine ⟨⟨cls, out⟩, ?_, hcr, hur, to_dict_missing_created _ hcr,
      dunderStr_missing_id _ hir⟩
    unfold BaseModel_init
    rw [if_pos (fun h0 => hne (List.length_eq_zero.mp h0)), hok]
  · intro m2 out hok hnm
    exact to_dict_missing_created _ (lookupA_eq_none_of_key_not_mem _ _
      (frame "created_at" m2 out hok hnm))
  · intro m2 out hok hnm
    exact to_dict_missing_updated _ (lookupA_eq_none_of_key_not_mem _ _
      (frame "updated_at" m2 out hok hnm))
  · intro m2 out hok hnm
    exact dunderStr_missing_id _ (lookupA_eq_none_of_key_not_mem _ _
      (frame "id" m2 out hok hnm))

/-- Witness for C9: a one-field mapping with neither timestamps nor id. -/
theorem C9_missing_attributes_witness :
    ∃ o : BaseModelObj, BaseModel_init "BaseModel" [] [("name", Value.vStr "n")]
        ⟨2024, 1, 1, 0, 0, 0, 0⟩ 0 [] = .ok (o, []) ∧
      lookupA o.attrs "created_at" = none ∧
      lookupA o.attrs "updated_at" = none ∧
      to_dict o = .error PyErr.attributeError ∧
      dunderStr o = .error PyErr.attributeError :=
  (C9_missing_attributes "BaseModel" [] ⟨2024, 1, 1, 0, 0, 0, 0⟩ 0 []
    [("name", Value.vStr "n")] (by decide) (by decide) (by decide)).1

/-- Lowercase hexadecimal digit test (over code points). -/
def isLowerHexDigit (c : Char) : Bool :=
  (48 ≤ c.toNat && c.toNat ≤ 57) || (97 ≤ c.toNat && c.toNat ≤ 102)

/-- The shape of `str(uuid.uuid4())`: five lowercase-hex groups of lengths
8-4-4-4-12 separated by hyphens, the third group starting with the version
digit `4` and the fourth with a variant digit in `8`/`9`/`a`/`b`. -/
def IsUUIDv4Shaped (s : String) : Prop :=
  ∃ g1 g2 g3 g4 g5 : List Char,
    s.data = g1 ++ '-' :: (g2 ++ '-' :: (g3 ++ '-' :: (g4 ++ '-' :: g5))) ∧
    g1.length = 8 ∧ g2.length = 4 ∧ g3.length = 4 ∧ g4.length = 4 ∧
    g5.length = 12 ∧
    (∀ c ∈ g1 ++ g2 ++ g3 ++ g4 ++ g5, isLowerHexDigit c = true) ∧
    g3.head? = some '4' ∧
    (∃ cv, g4.head? = some cv ∧ (cv = '8' ∨ cv = '9' ∨ cv = 'a' ∨ cv = 'b'))

theorem hexChar_isLowerHex (n : Nat) : isLowerHexDigit (hexChar n) = true := by
  have h : n % 16 < 16 := Nat.mod_lt _ (by norm_num)
  unfold hexChar
  interval_cases h : n % 16 <;> decide

theorem padHex_length (w : Nat) : ∀ n, (padHex w n).length = w := by
  induction w with
  | zero => intro n; rfl
  | succ w ih => intro n; simp [padHex, ih]

theorem padHex_all_hex (w : Nat) :
    ∀ n, ∀ c ∈ padHex w n, isLowerHexDigit c = true := by
  induction w with
  | zero => intro n c hc; cases hc
  | succ w ih =>
    intro n c hc
    rcases List.mem_cons.mp hc with h | h
    · rw [h]
      exact hexChar_isLowerHex _
    · exact ih n c h

theorem padHex_split (w1 : Nat) : ∀ (w2 n : Nat),
    padHex (w1 + w2) n = padHex w1 (n / 16^w2) ++ padHex w2 n := by
  induction w1 with
  | zero => intro w2 n; rw [Nat.zero_add]; rfl
  | succ w1 ih =>
    intro w2 n
    rw [show w1 + 1 + w2 = (w1 + w2) + 1 from by omega]
    show hexChar (n / 16^(w1 + w2)) :: padHex (w1 + w2) n
      = (hexChar (n / 16^w2 / 16^w1) :: padHex w1 (n / 16^w2)) ++ padHex w2 n
    rw [ih w2 n, Nat.div_div_eq_div_mul, ← pow_add]
    rw [show w2 + w1 = w1 + w2 from by omega]
    rfl

theorem uuidSetVariant_lt (x : Nat) (h : x < 2^128) : uuidSetVariant x < 2^128 := by
  unfold uuidSetVariant
  omega

theorem uuidSetVersion_lt (x : Nat) (h : x < 2^128) : uuidSetVersion x < 2^128 := by
  unfold uuidSetVersion
  omega

theorem uuidSetVersion_nibble (x : Nat) : uuidSetVersion x / 2^76 % 16 = 4 := by
  unfold uuidSetVersion
  omega

theorem uuidSetVersion_low (x : Nat) :
    uuidSetVersion x / 2^60 % 16 = x / 2^60 % 16 := by
  unfold uuidSetVersion
  omega

theorem uuidSetVariant_bits (x : Nat) :
    uuidSetVariant x / 2^60 % 16 = 8 ∨ uuidSetVariant x / 2^60 % 16 = 9 ∨
    uuidSetVariant x / 2^60 % 16 = 10 ∨ uuidSetVariant x / 2^60 % 16 = 11 := by
  unfold uuidSetVariant
  omega

theorem uuid4Int_lt (r : Nat) : uuid4Int r < 2^128 :=
  uuidSetVersion_lt _ (uuidSetVariant_lt _ (Nat.mod_lt _ (by norm_num)))

theorem uuid4Int_version (r : Nat) : uuid4Int r / 2^76 % 16 = 4 :=
  uuidSetVersion_nibble _

theorem uuid4Int_variant (r : Nat) :
    uuid4Int r / 2^60 % 16 = 8 ∨ uuid4Int r / 2^60 % 16 = 9 ∨
    uuid4Int r / 2^60 % 16 = 10 ∨ uuid4Int r / 2^60 % 16 = 11 := by
  unfold uuid4Int
  rw [uuidSetVersion_low]
  exact uuidSetVariant_bits _

theorem hexChar_eq_4 (n : Nat) (h : n % 16 = 4) : hexChar n = '4' := by
  unfold hexChar
  rw [h]

theorem hexChar_eq_8 (n : Nat) (h : n % 16 = 8) : hexChar n = '8' := by
  unfold hexChar
  rw [h]

theorem hexChar_eq_9 (n : Nat) (h : n % 16 = 9) : hexChar n = '9' := by
  unfold hexChar
  rw [h]

theorem hexChar_eq_a (n : Nat) (h : n % 16 = 10) : hexChar n = 'a' := by
  unfold hexChar
  rw [h]

theorem hexChar_eq_b (n : Nat) (h : n % 16 = 11) : hexChar n = 'b' := by
  unfold hexChar
  rw [h]

theorem padHex4_head (n : Nat) :
    (padHex 4 n).head? = some (hexChar (n / 4096)) := by
  norm_num [padHex]

/-- Every `str(uuid.uuid4())` output is UUID-v4-shaped, whatever the random
bytes were. -/
theorem uuid4Str_shaped (r : Nat) : IsUUIDv4Shaped (uuid4Str r) := by
  have s1 : padHex 32 (uuid4Int r)
      = padHex 8 (uuid4Int r / 16^24) ++ padHex 24 (uuid4Int r) :=
    padHex_split 8 24 (uuid4Int r)
  have s2 : padHex 24 (uuid4Int r)
      = padHex 4 (uuid4Int r / 16^20) ++ padHex 20 (uuid4Int r) :=
    padHex_split 4 20 (uuid4Int r)
  have s3 : padHex 20 (uuid4Int r)
      = padHex 4 (uuid4Int r / 16^16) ++ padHex 16 (uuid4Int r) :=
    padHex_split 4 16 (uuid4Int r)
  have s4 : padHex 16 (uuid4Int r)
      = padHex 4 (uuid4Int r / 16^12) ++ padHex 12 (uuid4Int r) :=
    padHex_split 4 12 (uuid4Int r)
  have hg : padHex 32 (uuid4Int r)
      = padHex 8 (uuid4Int r / 16^24) ++ (padHex 4 (uuid4Int r / 16^20)
        ++ (padHex 4 (uuid4Int r / 16^16) ++ (padHex 4 (uuid4Int r / 16^12)
          ++ padHex 12 (uuid4Int r)))) := by
    rw [s1, s2, s3, s4]
  have ht8 : (padHex 32 (uuid4Int r)).take 8 = padHex 8 (uuid4Int r / 16^24) := by
    rw [hg]
    exact List.take_left' (padHex_length 8 _)
  have hd8 : (padHex 32 (uuid4Int r)).drop 8
      = padHex 4 (uuid4Int r / 16^20) ++ (padHex 4 (uuid4Int r / 16^16)
        ++ (padHex 4 (uuid4Int r / 16^12) ++ padHex 12 (uuid4Int r))) := by
    rw [hg]
    exact List.drop_left' (padHex_length 8 _)
  have hd12 : (padHex 32 (uuid4Int r)).drop 12
      = padHex 4 (uuid4Int r / 16^16)
        ++ (padHex 4 (uuid4Int r / 16^12) ++ padHex 12 (uuid4Int r)) := by
    rw [hg, show padHex 8 (uuid4Int r / 16^24) ++ (padHex 4 (uuid4Int r / 16^20)
      ++ (padHex 4 (uuid4Int r / 16^16) ++ (padHex 4 (uuid4Int r / 16^12)
        ++ padHex 12 (uuid4Int r))))
      = (padHex 8 (uuid4Int r / 16^24) ++ padHex 4 (uuid4Int r / 16^20))
        ++ (padHex 4 (uuid4Int r / 16^16) ++ (padHex 4 (uuid4Int r / 16^12)
          ++ padHex 12 (uuid4Int r))) from (List.append_assoc _ _ _).symm]
    exact List.drop_left' (by simp [padHex_length])
  have hd16 : (padHex 32 (uuid4Int r)).drop 16
      = padHex 4 (uuid4Int r / 16^12) ++ padHex 12 (uuid4Int r) := by
    rw [hg, show padHex 8 (uuid4Int r / 16^24) ++ (padHex 4 (uuid4Int r / 16^20)
      ++ (padHex 4 (uuid4Int r / 16^16) ++ (padHex 4 (uuid4Int r / 16^12)
        ++ padHex 12 (uuid4Int r))))
      = (padHex 8 (uuid4Int r / 16^24) ++ (padHex 4 (uuid4Int r / 16^20)
        ++ padHex 4 (uuid4Int r / 16^16)))
        ++ (padHex 4 (uuid4Int r / 16^12) ++ padHex 12 (uuid4Int r)) from by
      simp [List.append_assoc]]
    exact List.drop_left' (by simp [padHex_length])
  have hd20 : (padHex 32 (uuid4Int r)).drop 20 = padHex 12 (uuid4Int r) := by
    rw [hg, show padHex 8 (uuid4Int r / 16^24) ++ (padHex 4 (uuid4Int r / 16^20)
      ++ (padHex 4 (uuid4Int r / 16^16) ++ (padHex 4 (uuid4Int r / 16^12)
        ++ padHex 12 (uuid4Int r))))
      = (padHex 8 (uuid4Int r / 16^24) ++ (padHex 4 (uuid4Int r / 16^20)
        ++ (padHex 4 (uuid4Int r / 16^16) ++ padHex 4 (uuid4Int r / 16^12))))
        ++ padHex 12 (uuid4Int r) from by
      simp [List.append_assoc]]
    exact List.drop_left' (by simp [padHex_length])
  refine ⟨padHex 8 (uuid4Int r / 16^24), padHex 4 (uuid4Int r / 16^20),
    padHex 4 (uuid4Int r / 16^16), padHex 4 (uuid4Int r / 16^12),
    padHex 12 (uuid4Int r), ?_, padHex_length 8 _, padHex_length 4 _,
    padHex_length 4 _, padHex_length 4 _, padHex_length 12 _, ?_, ?_, ?_⟩
  · show (padHex 32 (uuid4Int r)).take 8 ++ '-'
      :: (((padHex 32 (uuid4Int r)).drop 8).take 4 ++ '-'
      :: (((padHex 32 (uuid4Int r)).drop 12).take 4 ++ '-'
      :: (((padHex 32 (uuid4Int r)).drop 16).take 4 ++ '-'
      :: (padHex 32 (uuid4Int r)).drop 20))) = _
    rw [ht8, hd8, hd12, hd16, hd20,
      List.take_left' (padHex_length 4 (uuid4Int r / 16^20)),
      List.take_left' (padHex_length 4 (uuid4Int r / 16^16)),
      List.take_left' (padHex_length 4 (uuid4Int r / 16^12))]
  · intro c hc
    rcases List.mem_append.mp hc with h | h
    · rcases List.mem_append.mp h with h | h
      · rcases List.mem_append.mp h with h | h
        · rcases List.mem_append.mp h with h | h
          · exact padHex_all_hex 8 _ c h
          · exact padHex_all_hex 4 _ c h
        · exact padHex_all_hex 4 _ c h
      · exact padHex_all_hex 4 _ c h
    · exact padHex_all_hex 12 _ c h
  · rw [padHex4_head, Nat.div_div_eq_div_mul,
      show (16:Nat)^16 * 4096 = 2^76 from by norm_num,
      hexChar_eq_4 _ (uuid4Int_version r)]
  · rw [padHex4_head, Nat.div_div_eq_div_mul,
      show (16:Nat)^12 * 4096 = 2^60 from by norm_num]
    rcases uuid4Int_variant r with h | h | h | h
    · exact ⟨'8', by rw [hexChar_eq_8 _ h], Or.inl rfl⟩
    · exact ⟨'9', by rw [hexChar_eq_9 _ h], Or.inr (Or.inl rfl)⟩
    · exact ⟨'a', by rw [hexChar_eq_a _ h], Or.inr (Or.inr (Or.inl rfl))⟩
    · exact ⟨'b', by rw [hexChar_eq_b _ h], Or.inr (Or.inr (Or.inr rfl))⟩

/-- C5: a freshly constructed entity has `created_at = updated_at` (the very
clock value passed) and a UUID-v4-shaped `id` string, and is registered. -/
theorem C5_fresh_construction (cls : String) (args : List Value) (nowD : Datetime)
    (r : Nat) (st : Storage) :
    ∃ o : BaseModelObj, BaseModel_init cls args [] nowD r st
        = .ok (o, storageNew st o) ∧
      lookupA o.attrs "created_at" = some (Value.vDt nowD) ∧
      lookupA o.attrs "updated_at" = some (Value.vDt nowD) ∧
      lookupA o.attrs "created_at" = lookupA o.attrs "updated_at" ∧
      ∃ idv, lookupA o.attrs "id" = some (Value.vStr idv) ∧ IsUUIDv4Shaped idv :=
  ⟨⟨cls, freshAttrs r nowD⟩, BaseModel_init_fresh cls args nowD r st,
    rfl, rfl, rfl, uuid4Str r, rfl, uuid4Str_shaped r⟩
